import Mathlib

/-!
Verification of the hexagon geometry and Drom construction state machine of
`Drom.py`.  All coordinates produced by the program lie in ℚ[√3], so points are
embedded exactly as pairs `a + b·√3` with `a b : ℚ`; the program's additive
coordinate arithmetic is mirrored componentwise on this representation.
-/

/-- Exact representation of the real number `a + b * sqrt 3` with `a b : ℚ`.
Every coordinate computed by `Drom.py` has this form, and the script only ever
adds and subtracts coordinates, so componentwise arithmetic on this
representation reproduces the script's real arithmetic exactly. -/
@[ext]
structure K3 where
  a : ℚ
  b : ℚ
deriving DecidableEq

instance : Add K3 := ⟨fun u v => ⟨u.a + v.a, u.b + v.b⟩⟩

instance : Sub K3 := ⟨fun u v => ⟨u.a - v.a, u.b - v.b⟩⟩

instance : Neg K3 := ⟨fun u => ⟨-u.a, -u.b⟩⟩

/-- Scalar multiple `q * (a + b√3)`, used for the relative tolerance of
`np.isclose`. -/
def K3.smul (q : ℚ) (u : K3) : K3 := ⟨q * u.a, q * u.b⟩

/-- Decides `0 ≤ a + b√3` exactly: when the signs of `a` and `b` differ the
comparison reduces to comparing `a^2` with `3 * b^2`. -/
def K3.nonneg (u : K3) : Bool :=
  if 0 ≤ u.a then
    if 0 ≤ u.b then true else decide (3 * u.b ^ 2 ≤ u.a ^ 2)
  else
    if 0 ≤ u.b then decide (u.a ^ 2 ≤ 3 * u.b ^ 2) else false

/-- Exact absolute value on ℚ[√3]. -/
def K3.kabs (u : K3) : K3 := if K3.nonneg u then u else -u

/-- Exact order comparison on ℚ[√3]. -/
def K3.kle (u v : K3) : Bool := K3.nonneg (v - u)

/-- A planar point with both coordinates in ℚ[√3] (a row of the numpy arrays
used by `Drom.py`). -/
@[ext]
structure Pt where
  x : K3
  y : K3
deriving DecidableEq

instance : Add Pt := ⟨fun u v => ⟨u.x + v.x, u.y + v.y⟩⟩

instance : Sub Pt := ⟨fun u v => ⟨u.x - v.x, u.y - v.y⟩⟩

/-- One-sided `np.isclose(a, b)` with numpy's default tolerances:
`|a - b| ≤ atol + rtol * |b|`, `atol = 1e-8`, `rtol = 1e-5`, evaluated exactly
in ℚ[√3]. -/
def np_isclose (u v : K3) : Bool :=
  K3.kle (K3.kabs (u - v)) (⟨1 / 100000000, 0⟩ + K3.smul (1 / 100000) (K3.kabs v))

/-- Python list-index resolution for a list of length `n`: a negative index
`i` addresses position `i + n`; the access succeeds exactly when the resolved
position lies in `[0, n)`. -/
def pyIdx (n : ℕ) (i : ℤ) : Option ℕ :=
  let j := if i < 0 then i + n else i
  if 0 ≤ j ∧ j < n then some j.toNat else none

/-- Python `l[i]` on a list, `none` modelling an `IndexError`. -/
def pyGet? (l : List α) (i : ℤ) : Option α :=
  (pyIdx l.length i).bind fun j => l[j]?

/-- Python `l.pop(i)`: the list with the element at (resolved) position `i`
removed, `none` modelling an `IndexError`. -/
def pyPop? (l : List α) (i : ℤ) : Option (List α) :=
  (pyIdx l.length i).map fun j => l.take j ++ l.drop (j + 1)

/-- A hexagon of `Drom.py` is fully determined by its `start` field (the
anchor): `own_verts` is a shared constant and every other attribute is derived
from `start`. -/
structure Hex where
  start : Pt
deriving DecidableEq

namespace Hex

/-- The local vertex template `own_verts` of the `hex` class:
`[[0,0],[1,0],[1.5,√3/2],[1,√3],[0,√3],[-0.5,√3/2]]`. -/
def own_verts : Fin 6 → Pt
  | 0 => ⟨⟨0, 0⟩, ⟨0, 0⟩⟩
  | 1 => ⟨⟨1, 0⟩, ⟨0, 0⟩⟩
  | 2 => ⟨⟨3 / 2, 0⟩, ⟨0, 1 / 2⟩⟩
  | 3 => ⟨⟨1, 0⟩, ⟨0, 1⟩⟩
  | 4 => ⟨⟨0, 0⟩, ⟨0, 1⟩⟩
  | 5 => ⟨⟨-1 / 2, 0⟩, ⟨0, 1 / 2⟩⟩

/-- `set_start`: the anchor making the `i`-th vertex coincide with `start`. -/
def set_start (start : Pt) (i : Fin 6) : Pt := start - own_verts i

/-- The `hex(start, i)` constructor: stores the anchor computed by
`set_start`; all other attributes are derived below. -/
def new (start : Pt) (i : Fin 6) : Hex := ⟨set_start start i⟩

/-- `_create_hex` / `vertices`: absolute position of the `j`-th vertex. -/
def vertices (h : Hex) (j : Fin 6) : Pt := own_verts j + h.start

/-- `get_vert(i)`: the absolute position of the `i`-th vertex. -/
def get_vert (h : Hex) (i : Fin 6) : Pt := h.vertices i

/-- `_create_center`: `center = start + [0.5, √3/2]`. -/
def center (h : Hex) : Pt := h.start + ⟨⟨1 / 2, 0⟩, ⟨0, 1 / 2⟩⟩

/-- The six fixed offsets added to `center` by `_create_center` to obtain
`neighbour_center`. -/
def neighbour_offsets : Fin 6 → Pt
  | 0 => ⟨⟨0, 0⟩, ⟨0, -1⟩⟩
  | 1 => ⟨⟨3 / 2, 0⟩, ⟨0, -1 / 2⟩⟩
  | 2 => ⟨⟨3 / 2, 0⟩, ⟨0, 1 / 2⟩⟩
  | 3 => ⟨⟨0, 0⟩, ⟨0, 1⟩⟩
  | 4 => ⟨⟨-3 / 2, 0⟩, ⟨0, 1 / 2⟩⟩
  | 5 => ⟨⟨-3 / 2, 0⟩, ⟨0, -1 / 2⟩⟩

/-- `_create_center`: the theoretical centers of the six edge-adjacent
hexagons. -/
def neighbour_center (h : Hex) (k : Fin 6) : Pt := h.center + neighbour_offsets k

/-- `add_hex_under`: `hex(self.get_vert(0), 4)`. -/
def add_hex_under (h : Hex) : Hex := new (h.get_vert 0) 4

/-- `add_hex_bottom_right`: `hex(self.get_vert(1), 5)`. -/
def add_hex_bottom_right (h : Hex) : Hex := new (h.get_vert 1) 5

/-- `add_hex_top_right`: `hex(self.get_vert(2), 0)`. -/
def add_hex_top_right (h : Hex) : Hex := new (h.get_vert 2) 0

/-- `add_hex_over`: `hex(self.get_vert(4), 0)`. -/
def add_hex_over (h : Hex) : Hex := new (h.get_vert 4) 0

/-- `add_hex_top_left`: `hex(self.get_vert(5), 1)`. -/
def add_hex_top_left (h : Hex) : Hex := new (h.get_vert 5) 1

/-- `add_hex_bottom_left`: `hex(self.get_vert(5), 3)`. -/
def add_hex_bottom_left (h : Hex) : Hex := new (h.get_vert 5) 3

/-- The table `start_vert_num = [0, 1, 2, 4, 5, 5]` of `add_hex`, as a
function on in-range edge indices. -/
def start_vert_num : Fin 6 → Fin 6
  | 0 => 0
  | 1 => 1
  | 2 => 2
  | 3 => 4
  | 4 => 5
  | 5 => 5

/-- The table `end_vert_num = [4, 5, 0, 0, 1, 3]` of `add_hex`, as a function
on in-range edge indices. -/
def end_vert_num : Fin 6 → Fin 6
  | 0 => 4
  | 1 => 5
  | 2 => 0
  | 3 => 0
  | 4 => 1
  | 5 => 3

/-- `add_hex(num)` for an in-range edge index:
`hex(self.get_vert(start_vert_num[num]), end_vert_num[num])`. -/
def add_hex (h : Hex) (num : Fin 6) : Hex :=
  new (h.get_vert (start_vert_num num)) (end_vert_num num)

/-- The Python list `start_vert_num = [0, 1, 2, 4, 5, 5]`. -/
def start_vert_numL : List (Fin 6) := [0, 1, 2, 4, 5, 5]

/-- The Python list `end_vert_num = [4, 5, 0, 0, 1, 3]`. -/
def end_vert_numL : List (Fin 6) := [4, 5, 0, 0, 1, 3]

/-- `add_hex(num)` for an arbitrary Python integer `num`: the two table
lookups `start_vert_num[num]` and `end_vert_num[num]` use Python list
indexing, so indices in `[-6, -1]` resolve by wrap-around and only indices
outside `[-6, 6)` raise `IndexError` (modelled as `none`).  There is no
explicit range check in the function. -/
def add_hexInt (h : Hex) (num : ℤ) : Option Hex :=
  match pyGet? start_vert_numL num, pyGet? end_vert_numL num with
  | some s, some e => some (new (h.get_vert s) e)
  | _, _ => none

/-- `check_neighbours(all_centers)`: the resulting `thicc` array.  For edge
`n`, `val = np.isclose(neigh, all_centers).all(axis=1).any()` and
`thicc[n] = not val`. -/
def check_neighbours (h : Hex) (all_centers : List Pt) : Fin 6 → Bool :=
  fun n =>
    ! (all_centers.any fun c =>
        np_isclose (h.neighbour_center n).x c.x && np_isclose (h.neighbour_center n).y c.y)

end Hex

/-- The default seed hexagon `hex()` of `main`: anchored at the origin, pinned
at local vertex `0`. -/
def seedHex : Hex := Hex.new ⟨⟨0, 0⟩, ⟨0, 0⟩⟩ 0

/-- The interactive state of `main`: the list `list_of_hexes`, the variables
`current_hex` and `current_hex_num`, and the pair `(last_hex, last_hex_num)`
(`none` while those two variables are still unbound). -/
structure DromState where
  hexes : List Hex
  current : Hex
  currentNum : ℤ
  last? : Option (Hex × ℤ)
deriving DecidableEq

/-- The initial state of `main` with a single seed hexagon. -/
def mkSeed (seed : Hex) : DromState :=
  { hexes := [seed], current := seed, currentNum := 0, last? := none }

/-- The digit command of `main` (`i ∈ "012345"`): builds
`new_hex = current_hex.add_hex(num)`, records `(last_hex, last_hex_num)`,
appends `new_hex` and makes it current with index `len(list_of_hexes) - 1`. -/
def addAdjacent (s : DromState) (e : Fin 6) : DromState :=
  let newHex := s.current.add_hex e
  { hexes := s.hexes ++ [newHex]
    current := newHex
    currentNum := (s.hexes.length : ℤ)
    last? := some (s.current, s.currentNum) }

/-- The `change_hex` command of `main` for an integer input `i`: it first
assigns `current_hex_num = I` and only then evaluates `list_of_hexes[I]`, so
when the lookup raises `IndexError` (caught by the surrounding `except`) the
invalid index is left behind in `current_hex_num`. -/
def switchCurrent (s : DromState) (i : ℤ) : DromState :=
  match pyGet? s.hexes i with
  | some h => { s with currentNum := i, current := h }
  | none => { s with currentNum := i }

/-- Outcome of `remove_last`: either a new state, or an uncaught exception
(`IndexError` from `pop` on an empty list, or `NameError` from reading the
unbound `last_hex`) that terminates the program; `crashed` records the value
of `list_of_hexes` at the moment of the crash. -/
inductive RLResult where
  | crashed (hexes : List Hex) : RLResult
  | ok (s : DromState) : RLResult
deriving DecidableEq

/-- The `remove_last` command of `main`: `list_of_hexes.pop()` runs first;
then `current_hex_num = last_hex_num` and `current_hex = last_hex` read the
saved pair, crashing with `NameError` when it was never bound.  The saved pair
is never cleared. -/
def removeLast (s : DromState) : RLResult :=
  if s.hexes.isEmpty then .crashed s.hexes
  else
    match s.last? with
    | none => .crashed s.hexes.dropLast
    | some (h, n) =>
      .ok { hexes := s.hexes.dropLast, current := h, currentNum := n, last? := s.last? }

/-- Extracts the state of a successful `remove_last`, with a fallback for the
crash case. -/
def RLResult.getOk (r : RLResult) (dflt : DromState) : DromState :=
  match r with
  | .ok s => s
  | .crashed _ => dflt

/-- Whether `remove_last` completed without an uncaught exception. -/
def RLResult.isOk : RLResult → Bool
  | .ok _ => true
  | .crashed _ => false

/-- One add immediately followed by one `remove_last` (the round-trip step of
the spec). -/
def addThenRemove (s : DromState) (e : Fin 6) : DromState :=
  (removeLast (addAdjacent s e)).getOk s

/-- The `remove` command of `main` for an integer input `i`:
`list_of_hexes.pop(I)`; if `I == current_hex_num` then `current_hex =
last_hex` (a `NameError` when unbound is caught by the `except`, after the
`pop` already happened); finally `current_hex_num =
list_of_hexes.index(current_hex)` (a `ValueError` when absent is likewise
caught after the preceding assignments).  An invalid index raises
`IndexError` inside `pop` before any mutation, so the state is returned
unchanged. -/
def removeAt (s : DromState) (i : ℤ) : DromState :=
  match pyPop? s.hexes i with
  | none => s
  | some hexes' =>
    if i = s.currentNum then
      match s.last? with
      | none => { s with hexes := hexes' }
      | some (h, _) =>
        if h ∈ hexes' then
          { hexes := hexes', current := h, currentNum := (hexes'.indexOf h : ℤ),
            last? := s.last? }
        else { s with hexes := hexes', current := h }
    else
      if s.current ∈ hexes' then
        { s with hexes := hexes', currentNum := (hexes'.indexOf s.current : ℤ) }
      else { s with hexes := hexes' }

/-! Componentwise evaluation lemmas for the exact arithmetic. -/

@[simp]
theorem K3.add_a (u v : K3) : (u + v).a = u.a + v.a := rfl

@[simp]
theorem K3.add_b (u v : K3) : (u + v).b = u.b + v.b := rfl

@[simp]
theorem K3.sub_a (u v : K3) : (u - v).a = u.a - v.a := rfl

@[simp]
theorem K3.sub_b (u v : K3) : (u - v).b = u.b - v.b := rfl

@[simp]
theorem K3.mk_add (a b c d : ℚ) : (⟨a, b⟩ : K3) + ⟨c, d⟩ = ⟨a + c, b + d⟩ := rfl

@[simp]
theorem K3.mk_sub (a b c d : ℚ) : (⟨a, b⟩ : K3) - ⟨c, d⟩ = ⟨a - c, b - d⟩ := rfl

@[simp]
theorem K3.neg_mk (a b : ℚ) : -(⟨a, b⟩ : K3) = ⟨-a, -b⟩ := rfl

@[simp]
theorem Pt.add_x (u v : Pt) : (u + v).x = u.x + v.x := rfl

@[simp]
theorem Pt.add_y (u v : Pt) : (u + v).y = u.y + v.y := rfl

@[simp]
theorem Pt.sub_x (u v : Pt) : (u - v).x = u.x - v.x := rfl

@[simp]
theorem Pt.sub_y (u v : Pt) : (u - v).y = u.y - v.y := rfl

@[simp]
theorem Pt.point_add (a b c d : K3) : (⟨a, b⟩ : Pt) + ⟨c, d⟩ = ⟨a + c, b + d⟩ := rfl

@[simp]
theorem Pt.point_sub (a b c d : K3) : (⟨a, b⟩ : Pt) - ⟨c, d⟩ = ⟨a - c, b - d⟩ := rfl

/-! Helper lemmas about the Python indexing primitives and the state
machine. -/

theorem pyIdx_eq_none (n : ℕ) (i : ℤ) (h : (n : ℤ) ≤ i ∨ i < -(n : ℤ)) :
    pyIdx n i = none := by
  simp only [pyIdx]
  split_ifs <;> first | rfl | omega

theorem pyIdx_eq_some_of_neg (n : ℕ) (i : ℤ) (hn : -(n : ℤ) ≤ i) (hi : i < 0) :
    pyIdx n i = some (i + n).toNat := by
  simp only [pyIdx]
  split_ifs <;> first | rfl | omega

theorem pyGet?_eq_none (l : List α) (i : ℤ)
    (h : (l.length : ℤ) ≤ i ∨ i < -(l.length : ℤ)) : pyGet? l i = none := by
  simp [pyGet?, pyIdx_eq_none _ _ h]

theorem pyGet?_of_neg (l : List α) (i : ℤ) (d : α)
    (hn : -(l.length : ℤ) ≤ i) (hi : i < 0) :
    pyGet? l i = some (l.getD (i + l.length).toNat d) := by
  have hlt : (i + (l.length : ℤ)).toNat < l.length := by omega
  simp [pyGet?, pyIdx_eq_some_of_neg _ _ hn hi, List.getElem?_eq_getElem hlt,
    List.getD_eq_getElem?_getD]

theorem pyPop?_length (l : List α) (i : ℤ) (l' : List α)
    (hp : pyPop? l i = some l') : l'.length + 1 = l.length := by
  rw [pyPop?] at hp
  rcases hidx : pyIdx l.length i with _ | j
  · rw [hidx] at hp
    exact Option.noConfusion hp
  · rw [hidx] at hp
    have hj : j < l.length := by
      rw [pyIdx] at hidx
      split_ifs at hidx <;>
        first
        | exact Option.noConfusion hidx
        | (injection hidx with h'
           omega)
    injection hp with h'
    rw [← h', List.length_append, List.length_take, List.length_drop]
    omega

theorem removeLast_addAdjacent (s : DromState) (e : Fin 6) :
    removeLast (addAdjacent s e) =
      RLResult.ok { s with last? := some (s.current, s.currentNum) } := by
  have hne : (s.hexes ++ [s.current.add_hex e]).isEmpty = false := by
    cases s.hexes <;> rfl
  simp [removeLast, addAdjacent, hne, List.dropLast_concat]

theorem addThenRemove_eq (s : DromState) (e : Fin 6) :
    addThenRemove s e = { s with last? := some (s.current, s.currentNum) } := by
  rw [addThenRemove, removeLast_addAdjacent]
  rfl

theorem foldl_addThenRemove (es : List (Fin 6)) (s : DromState) :
    (es.foldl addThenRemove s).hexes = s.hexes
    ∧ (es.foldl addThenRemove s).current = s.current
    ∧ (es.foldl addThenRemove s).currentNum = s.currentNum := by
  induction es generalizing s with
  | nil => exact ⟨rfl, rfl, rfl⟩
  | cons e es ih =>
    rw [List.foldl_cons, addThenRemove_eq]
    exact ih _

theorem removeAt_hexes (s : DromState) (i : ℤ) (l' : List Hex)
    (hp : pyPop? s.hexes i = some l') : (removeAt s i).hexes = l' := by
  unfold removeAt
  rw [hp]
  split
  next _x heq => exact Option.noConfusion heq
  next _x hexes' heq =>
    obtain rfl : hexes' = l' := by
      injection heq with h'
      exact h'.symm
    split
    · split
      · rfl
      · split <;> rfl
    · split <;> rfl

/-! Claim theorems. -/

set_option maxHeartbeats 1600000 in
/-- Claim C1: for every hexagon `H` and edge `e ∈ [0,6)`, `add_hex` pins the
new hexagon's vertex `end_vert_num[e]` onto `H`'s vertex `start_vert_num[e]`,
and the two absolute vertices bounding the shared edge coincide exactly in
both hexagons: edge `e` of `H` is bounded by its vertices `e` and `e+1`, and
these equal vertices `e+4` and `e+3` (bounding edge `e+3`) of the attached
hexagon. -/
theorem C1_shared_edge (H : Hex) (e : Fin 6) :
    (H.add_hex e).vertices (Hex.end_vert_num e) = H.vertices (Hex.start_vert_num e)
    ∧ (H.add_hex e).vertices (e + 3) = H.vertices (e + 1)
    ∧ (H.add_hex e).vertices (e + 4) = H.vertices e := by
  fin_cases e <;>
    refine ⟨?_, ?_, ?_⟩ <;>
      (apply Pt.ext <;> apply K3.ext <;>
        simp [Hex.add_hex, Hex.new, Hex.set_start, Hex.get_vert, Hex.vertices, Hex.own_verts,
          Hex.start_vert_num, Hex.end_vert_num] <;> ring)

/-- Claim C2: in any Active state (current hexagon stored at `currentNum`),
the digit command computes `new_hex = current.add_hex e`, appends it after the
unchanged prefix, saves the old `(current, currentNum)` pair, and sets
`currentNum` to the index of the new last element. -/
theorem C2_addAdjacent (s : DromState) (e : Fin 6)
    (hact : pyGet? s.hexes s.currentNum = some s.current) :
    (addAdjacent s e).hexes = s.hexes ++ [s.current.add_hex e]
    ∧ (addAdjacent s e).current = s.current.add_hex e
    ∧ (addAdjacent s e).last? = some (s.current, s.currentNum)
    ∧ (addAdjacent s e).currentNum = ((addAdjacent s e).hexes.length : ℤ) - 1 := by
  refine ⟨rfl, rfl, rfl, ?_⟩
  simp [addAdjacent]

/-- Witness for C2: the seed state satisfies the Active-state hypothesis and
adding on edge 0 behaves as stated. -/
theorem C2_witness :
    pyGet? (mkSeed seedHex).hexes (mkSeed seedHex).currentNum = some (mkSeed seedHex).current
    ∧ ((addAdjacent (mkSeed seedHex) 0).hexes
        = (mkSeed seedHex).hexes ++ [(mkSeed seedHex).current.add_hex 0]
      ∧ (addAdjacent (mkSeed seedHex) 0).current = (mkSeed seedHex).current.add_hex 0
      ∧ (addAdjacent (mkSeed seedHex) 0).last?
        = some ((mkSeed seedHex).current, (mkSeed seedHex).currentNum)
      ∧ (addAdjacent (mkSeed seedHex) 0).currentNum
        = ((addAdjacent (mkSeed seedHex) 0).hexes.length : ℤ) - 1) :=
  ⟨rfl, C2_addAdjacent (mkSeed seedHex) 0 rfl⟩

/-- Counterexample to claim C3: on the single-hexagon seed state, the failed
`change_hex 5` does not leave the state unchanged — `current_hex_num` is
assigned before the lookup raises, so the state after the failed call differs
from the state before it. -/
theorem C3_counterexample : switchCurrent (mkSeed seedHex) 5 ≠ mkSeed seedHex := by
  intro hEq
  have h5 : (switchCurrent (mkSeed seedHex) 5).currentNum = 5 := rfl
  rw [hEq] at h5
  exact absurd h5 (by norm_num [mkSeed])

/-- Claim C3 as amended: for `i ≥ len` or `i < -len` the lookup fails
(`IndexError`, caught), leaving `hexes`, `current` and `last?` unchanged but
`currentNum` set to the invalid `i`; for `-len ≤ i < 0` the switch succeeds
through Python negative indexing, making `hexes[i+len]` current. -/
theorem C3_amended (s : DromState) (i : ℤ) :
    (((s.hexes.length : ℤ) ≤ i ∨ i < -(s.hexes.length : ℤ)) →
      switchCurrent s i = { s with currentNum := i })
    ∧ (-(s.hexes.length : ℤ) ≤ i → i < 0 →
      switchCurrent s i =
        { s with currentNum := i,
                 current := s.hexes.getD (i + (s.hexes.length : ℤ)).toNat s.current }) := by
  constructor
  · intro h
    rw [switchCurrent, pyGet?_eq_none _ _ h]
  · intro hn hi
    rw [switchCurrent, pyGet?_of_neg _ _ s.current hn hi]

/-- Witness for the amended C3 at the seed state, with the out-of-range index
`5` and the negative index `-1`. -/
theorem C3_witness :
    (((mkSeed seedHex).hexes.length : ℤ) ≤ 5 ∨ (5 : ℤ) < -((mkSeed seedHex).hexes.length : ℤ))
    ∧ switchCurrent (mkSeed seedHex) 5 = { mkSeed seedHex with currentNum := 5 }
    ∧ (-(((mkSeed seedHex).hexes.length : ℤ)) ≤ -1 ∧ (-1 : ℤ) < 0)
    ∧ switchCurrent (mkSeed seedHex) (-1) =
        { mkSeed seedHex with
            currentNum := -1,
            current :=
              (mkSeed seedHex).hexes.getD
                ((-1) + ((mkSeed seedHex).hexes.length : ℤ)).toNat (mkSeed seedHex).current } :=
  ⟨by norm_num [mkSeed], (C3_amended (mkSeed seedHex) 5).1 (by norm_num [mkSeed]),
   by norm_num [mkSeed],
   (C3_amended (mkSeed seedHex) (-1)).2 (by norm_num [mkSeed]) (by norm_num)⟩

/-- Counterexample to claim C4: after one add followed by one `remove_last`,
a second consecutive `remove_last` succeeds (the saved pair is never
cleared), contradicting "a second consecutive removeLast without an
intervening add always fails with NoHistory". -/
theorem C4_counterexample :
    (removeLast ((removeLast (addAdjacent (mkSeed seedHex) 0)).getOk (mkSeed seedHex))).isOk
      = true := by
  rw [removeLast_addAdjacent]
  rfl

/-- Claim C4 as amended: with no saved pair, `remove_last` pops the last
hexagon and then crashes with an unbound-variable error (no typed
`NoHistory`); with a saved pair it succeeds and the pair is kept, so a second
consecutive `remove_last` succeeds again whenever a hexagon remains. -/
theorem C4_amended (s : DromState) (h : Hex) (n : ℤ) :
    (s.last? = none → s.hexes ≠ [] → removeLast s = RLResult.crashed s.hexes.dropLast)
    ∧ (s.last? = some (h, n) → s.hexes ≠ [] →
        removeLast s = RLResult.ok ⟨s.hexes.dropLast, h, n, some (h, n)⟩)
    ∧ (s.last? = some (h, n) → s.hexes.dropLast ≠ [] →
        (removeLast ((removeLast s).getOk s)).isOk = true) := by
  refine ⟨?_, ?_, ?_⟩
  · intro h1 h2
    have hne : s.hexes.isEmpty = false := by simpa [List.isEmpty_iff] using h2
    simp [removeLast, hne, h1]
  · intro h1 h2
    have hne : s.hexes.isEmpty = false := by simpa [List.isEmpty_iff] using h2
    simp [removeLast, hne, h1]
  · intro h1 h2
    have h2' : s.hexes ≠ [] := by
      intro hnil
      rw [hnil] at h2
      exact h2 rfl
    have hne : s.hexes.isEmpty = false := by simpa [List.isEmpty_iff] using h2'
    have hne2 : s.hexes.dropLast.isEmpty = false := by simpa [List.isEmpty_iff] using h2
    simp [removeLast, hne, h1, RLResult.getOk, hne2, RLResult.isOk]

/-- Witness for the amended C4: the fresh seed state exercises the crash
branch, and a three-hexagon state with a saved pair exercises the success and
repeated-undo branches. -/
theorem C4_witness :
    (mkSeed seedHex).last? = none
    ∧ (mkSeed seedHex).hexes ≠ []
    ∧ removeLast (mkSeed seedHex) = RLResult.crashed (mkSeed seedHex).hexes.dropLast
    ∧ (addAdjacent (addAdjacent (mkSeed seedHex) 0) 0).last? = some (seedHex.add_hex 0, 1)
    ∧ removeLast (addAdjacent (addAdjacent (mkSeed seedHex) 0) 0)
        = RLResult.ok ⟨(addAdjacent (addAdjacent (mkSeed seedHex) 0) 0).hexes.dropLast,
            seedHex.add_hex 0, 1, some (seedHex.add_hex 0, 1)⟩
    ∧ (removeLast ((removeLast (addAdjacent (addAdjacent (mkSeed seedHex) 0) 0)).getOk
          (addAdjacent (addAdjacent (mkSeed seedHex) 0) 0))).isOk = true :=
  ⟨rfl, by simp [mkSeed],
   (C4_amended (mkSeed seedHex) seedHex 0).1 rfl (by simp [mkSeed]),
   rfl,
   (C4_amended _ (seedHex.add_hex 0) 1).2.1 rfl (by simp [addAdjacent, mkSeed]),
   (C4_amended _ (seedHex.add_hex 0) 1).2.2 rfl (by simp [addAdjacent, mkSeed])⟩

/-- Claim C5: starting from any single-seed Drom state, any number of rounds
of one add (on any valid edge) immediately followed by one `remove_last`
returns the state to the seed: one hexagon with the original anchor, current
index 0, the seed current again. -/
theorem C5_roundtrip (seed : Hex) (es : List (Fin 6)) :
    (es.foldl addThenRemove (mkSeed seed)).hexes = [seed]
    ∧ (es.foldl addThenRemove (mkSeed seed)).currentNum = 0
    ∧ (es.foldl addThenRemove (mkSeed seed)).current = seed := by
  obtain ⟨h1, h2, h3⟩ := foldl_addThenRemove es (mkSeed seed)
  exact ⟨h1, h3, h2⟩

/-- Counterexample to claim C6: `add_hex(-1)` is not rejected — Python
negative list indexing resolves the table lookups, and a hexagon (the one for
edge 5) is returned. -/
theorem C6_counterexample : seedHex.add_hexInt (-1) = some (seedHex.add_hex 5) := rfl

/-- Claim C6 as amended: only `num ≥ 6` or `num < -6` fail (with an untyped
`IndexError`, not a typed `InvalidEdge`); `num ∈ [-6, 0)` wraps around to
edge `num + 6` and returns a hexagon; `num ∈ [0, 6)` returns the table-driven
hexagon. -/
theorem C6_amended (h : Hex) (num : ℤ) :
    ((6 ≤ num ∨ num < -6) → h.add_hexInt num = none)
    ∧ (-6 ≤ num → num < 0 →
        h.add_hexInt num = h.add_hexInt (num + 6) ∧ (h.add_hexInt num).isSome = true)
    ∧ (0 ≤ num → num < 6 →
        h.add_hexInt num = some (h.add_hex (Fin.ofNat num.toNat))) := by
  refine ⟨?_, ?_, ?_⟩
  · intro hcase
    have h1 : pyGet? Hex.start_vert_numL num = none := pyGet?_eq_none _ _ (by simpa using hcase)
    simp [Hex.add_hexInt, h1]
  · intro hn hi
    interval_cases num <;> exact ⟨rfl, rfl⟩
  · intro hn hi
    interval_cases num <;> rfl

/-- Witness for the amended C6 at the indices 7, -1 and 2. -/
theorem C6_witness :
    ((6 : ℤ) ≤ 7 ∨ (7 : ℤ) < -6) ∧ seedHex.add_hexInt 7 = none
    ∧ ((-6 : ℤ) ≤ -1 ∧ (-1 : ℤ) < 0)
    ∧ (seedHex.add_hexInt (-1) = seedHex.add_hexInt (-1 + 6)
        ∧ (seedHex.add_hexInt (-1)).isSome = true)
    ∧ ((0 : ℤ) ≤ 2 ∧ (2 : ℤ) < 6)
    ∧ seedHex.add_hexInt 2 = some (seedHex.add_hex (Fin.ofNat (2 : ℤ).toNat)) :=
  ⟨by norm_num, (C6_amended seedHex 7).1 (by norm_num),
   by norm_num,
   (C6_amended seedHex (-1)).2.1 (by norm_num) (by norm_num),
   by norm_num,
   (C6_amended seedHex 2).2.2 (by norm_num) (by norm_num)⟩

set_option maxHeartbeats 800000 in
/-- Claim C7: for every hexagon and every edge `e ∈ [0,6)`, the center of the
attached hexagon equals the source hexagon's `e`-th theoretical neighbour
center exactly, so the adjacency table and the six fixed neighbour-center
offsets agree on all six edges. -/
theorem C7_center (H : Hex) (e : Fin 6) :
    (H.add_hex e).center = H.neighbour_center e := by
  fin_cases e <;>
    (apply Pt.ext <;> apply K3.ext <;>
      simp [Hex.add_hex, Hex.new, Hex.set_start, Hex.center, Hex.neighbour_center,
        Hex.neighbour_offsets, Hex.get_vert, Hex.vertices, Hex.own_verts,
        Hex.start_vert_num, Hex.end_vert_num] <;> ring)

set_option maxHeartbeats 1600000 in
/-- Claim C8: for the seed hexagon S and T = `add_hex(S, 0)`,
`check_neighbours(S, [S.center, T.center])` marks edge 0 as interior (flag
false) and edges 1–5 as boundary (flag true). -/
theorem C8_classify :
    Hex.check_neighbours seedHex [seedHex.center, (seedHex.add_hex 0).center] 0 = false
    ∧ Hex.check_neighbours seedHex [seedHex.center, (seedHex.add_hex 0).center] 1 = true
    ∧ Hex.check_neighbours seedHex [seedHex.center, (seedHex.add_hex 0).center] 2 = true
    ∧ Hex.check_neighbours seedHex [seedHex.center, (seedHex.add_hex 0).center] 3 = true
    ∧ Hex.check_neighbours seedHex [seedHex.center, (seedHex.add_hex 0).center] 4 = true
    ∧ Hex.check_neighbours seedHex [seedHex.center, (seedHex.add_hex 0).center] 5 = true := by
  refine ⟨?_, ?_, ?_, ?_, ?_, ?_⟩ <;>
    norm_num [seedHex, Hex.check_neighbours, Hex.add_hex, Hex.new, Hex.set_start, Hex.get_vert,
      Hex.vertices, Hex.own_verts, Hex.start_vert_num, Hex.end_vert_num, Hex.center,
      Hex.neighbour_center, Hex.neighbour_offsets, np_isclose, K3.kle, K3.kabs, K3.nonneg,
      K3.smul, List.any_cons, List.any_nil]

/-- Counterexample to claim C9: on a two-hexagon state with a saved pair, the
index `-1` (outside `[0, 2)`) is not rejected: `remove(-1)` pops the last
hexagon, so the state changes instead of failing with `OutOfRange`. -/
theorem C9_counterexample :
    removeAt (addAdjacent (mkSeed seedHex) 0) (-1) ≠ addAdjacent (mkSeed seedHex) 0 := by
  intro hEq
  have h1 : (removeAt (addAdjacent (mkSeed seedHex) 0) (-1)).hexes = [seedHex] :=
    removeAt_hexes _ _ _ rfl
  rw [hEq] at h1
  simp [addAdjacent, mkSeed] at h1

/-- Claim C9 as amended: when a saved pair exists and its hexagon is still in
the popped list, `remove(currentNum)` removes the current hexagon, makes the
saved hexagon current, and sets `currentNum` to its post-removal position;
indices `i ≥ len` or `i < -len` fail inside `pop` before any mutation and
leave the state unchanged; indices `-len ≤ i < 0` succeed via Python negative
indexing and remove one hexagon. -/
theorem C9_amended (s : DromState) (ph : Hex) (pn i : ℤ) (l' : List Hex)
    (hlast : s.last? = some (ph, pn))
    (hpop : pyPop? s.hexes s.currentNum = some l')
    (hmem : ph ∈ l') :
    removeAt s s.currentNum
      = { hexes := l', current := ph, currentNum := (l'.indexOf ph : ℤ), last? := s.last? }
    ∧ (((s.hexes.length : ℤ) ≤ i ∨ i < -(s.hexes.length : ℤ)) → removeAt s i = s)
    ∧ (-(s.hexes.length : ℤ) ≤ i → i < 0 →
        (removeAt s i).hexes.length + 1 = s.hexes.length) := by
  refine ⟨?_, ?_, ?_⟩
  · unfold removeAt
    rw [hpop]
    simp [hlast, hmem]
  · intro hout
    have hnone : pyPop? s.hexes i = none := by
      simp [pyPop?, pyIdx_eq_none _ _ hout]
    unfold removeAt
    rw [hnone]
  · intro hn hi
    have hsome : pyPop? s.hexes i
        = some (s.hexes.take (i + s.hexes.length).toNat
            ++ s.hexes.drop ((i + s.hexes.length).toNat + 1)) := by
      simp [pyPop?, pyIdx_eq_some_of_neg _ _ hn hi]
    rw [removeAt_hexes s i _ hsome]
    exact pyPop?_length s.hexes i _ hsome

/-- Witness for the amended C9 on a two-hexagon state whose saved pair is the
seed hexagon, with the out-of-range index 5. -/
theorem C9_witness :
    (addAdjacent (mkSeed seedHex) 0).last? = some (seedHex, 0)
    ∧ pyPop? (addAdjacent (mkSeed seedHex) 0).hexes (addAdjacent (mkSeed seedHex) 0).currentNum
        = some [seedHex]
    ∧ seedHex ∈ [seedHex]
    ∧ (removeAt (addAdjacent (mkSeed seedHex) 0) (addAdjacent (mkSeed seedHex) 0).currentNum
        = { hexes := [seedHex], current := seedHex,
            currentNum := (([seedHex].indexOf seedHex : ℕ) : ℤ),
            last? := (addAdjacent (mkSeed seedHex) 0).last? }
      ∧ ((((addAdjacent (mkSeed seedHex) 0).hexes.length : ℤ) ≤ 5
          ∨ (5 : ℤ) < -((addAdjacent (mkSeed seedHex) 0).hexes.length : ℤ)) →
            removeAt (addAdjacent (mkSeed seedHex) 0) 5 = addAdjacent (mkSeed seedHex) 0)
      ∧ (-((addAdjacent (mkSeed seedHex) 0).hexes.length : ℤ) ≤ 5 → (5 : ℤ) < 0 →
            (removeAt (addAdjacent (mkSeed seedHex) 0) 5).hexes.length + 1
              = (addAdjacent (mkSeed seedHex) 0).hexes.length)) :=
  ⟨rfl, rfl, List.Mem.head _,
   C9_amended (addAdjacent (mkSeed seedHex) 0) seedHex 0 5 [seedHex] rfl rfl (List.Mem.head _)⟩

/-- Claim C10: each named direction method returns a hexagon equal (same
anchor, hence same derived vertices and center) to the table-driven
`add_hex` at the corresponding edge index. -/
theorem C10_named_methods (H : Hex) :
    H.add_hex_under = H.add_hex 0
    ∧ H.add_hex_bottom_right = H.add_hex 1
    ∧ H.add_hex_top_right = H.add_hex 2
    ∧ H.add_hex_over = H.add_hex 3
    ∧ H.add_hex_top_left = H.add_hex 4
    ∧ H.add_hex_bottom_left = H.add_hex 5 :=
  ⟨rfl, rfl, rfl, rfl, rfl, rfl⟩
